import Mathlib

/-!
Shallow embedding of the Eupheme content-negotiation core
(eupheme/mime.py and eupheme/negotiation.py) together with proofs about
the claims of the specification.  Strings are modelled as `List Char`;
a parse failure (Python `ValueError` / an uncaught exception) is
modelled as `none` / an `Except.error`.
-/

namespace Eupheme

/-- Characters are modelled by their Unicode code point, as in Python str. -/
abbrev Str := List Char

/-- Token character as recognised by RE_TOKEN in mime.py:
any character outside \x00-\x20 and \x80-\xff that is not one of the
delimiters given in the character class. -/
def isTokenChar (c : Char) : Bool :=
  decide (32 < c.toNat) &&
  !(decide (128 ≤ c.toNat) && decide (c.toNat ≤ 255)) &&
  !("()<>@,;:\\\"/[]?=".toList.contains c)

/-- Python's dollar anchor (without MULTILINE) matches at the end of
the string or just before a newline that ends the string; an anchored
pattern whose body cannot consume a line feed therefore matches a
string exactly when it matches the string with one trailing line feed
removed.  This helper removes that optional trailing line feed. -/
def dollarStrip (s : Str) : Str :=
  if s.getLast? = some '\n' then s.dropLast else s

/-- Embedding of a truthy RE_TOKEN.match: a nonempty string of token
characters, optionally followed by one trailing line feed (which the
dollar anchor tolerates although a line feed is not a token
character). -/
def isToken (s : Str) : Bool :=
  let w := dollarStrip s
  !w.isEmpty && w.all isTokenChar

/-- Word character of the regex \w restricted to ASCII input
(RE_PARAMETER matches keys with \w+; on ASCII text, \w is [A-Za-z0-9_]). -/
def isWordChar (c : Char) : Bool :=
  c.isAlphanum || c = '_'

/-- Embedding of RE_PARAMETER, the match of a single parameter segment
against ^(?P<key>\w+)=(?P<value>.*)$ with DOTALL.  Since '=' is not a
word character, the greedy \w+ together with the mandatory '=' forces
the key to be the maximal word-character prefix, followed by '='. -/
def matchParameter (s : Str) : Option (Str × Str) :=
  let k := s.takeWhile isWordChar
  if k.isEmpty then none
  else
    match s.drop k.length with
    | '=' :: v => some (k, v)
    | _ => none

/-- Embedding of the body of RE_QUOTED_STRING after the opening quote:
alternatives qtext (no backslash, quote, CR or \x80-\xff), the pair
CR LF, and a quoted-pair backslash plus any \x00-\x7f character; a bare
unescaped quote terminates the string and must be the last character.
The alternatives have disjoint first characters, so the regex match is
equivalent to this deterministic scan. -/
def qsBody : Str → Bool
  | [] => false
  | '"' :: rest => rest.isEmpty
  | '\\' :: c :: rest => decide (c.toNat ≤ 127) && qsBody rest
  | '\r' :: '\n' :: rest => qsBody rest
  | c :: rest =>
    !(c = '\\' || c = '"' || c = '\r' ||
      (decide (128 ≤ c.toNat) && decide (c.toNat ≤ 255))) && qsBody rest

/-- Embedding of a truthy RE_QUOTED_STRING.match: an opening quote
followed by a valid body terminated by the closing quote; the dollar
anchor also tolerates one trailing line feed after the closing quote. -/
def isQuotedString (s : Str) : Bool :=
  match dollarStrip s with
  | '"' :: rest => qsBody rest
  | _ => false

/-- Embedding of re.sub applied with pattern \\(.) and replacement \1
(the unquoting step for quoted-string values): a left-to-right scan
replacing each backslash-character pair by the bare character; the dot
does not match a line feed, so a backslash before a line feed stays. -/
def unescapePairs : Str → Str
  | [] => []
  | ['\\'] => ['\\']
  | '\\' :: c :: rest =>
    if c = '\n' then '\\' :: '\n' :: unescapePairs rest
    else c :: unescapePairs rest
  | c :: rest => c :: unescapePairs rest

/-- Embedding of re.sub applied with pattern ("|\\|\r(!?\n)) and
replacement \\\1 in MimeParameters.__str__: a left-to-right scan that
prefixes a backslash to each quote, each backslash, and each match of
\r!?\n (that is, CR LF or CR bang LF).  Note that the source pattern
spells (!?\n) where its comment announces (?!\n): a carriage return not
followed by a line feed is left untouched by this substitution. -/
def escapeForQuoting : Str → Str
  | [] => []
  | '"' :: rest => '\\' :: '"' :: escapeForQuoting rest
  | '\\' :: rest => '\\' :: '\\' :: escapeForQuoting rest
  | '\r' :: '!' :: '\n' :: rest => '\\' :: '\r' :: '!' :: '\n' :: escapeForQuoting rest
  | '\r' :: '\n' :: rest => '\\' :: '\r' :: '\n' :: escapeForQuoting rest
  | c :: rest => c :: escapeForQuoting rest

/-- Parameter maps are association lists with the insertion-order and
unique-key semantics of a Python dict. -/
abbrev Params := List (Str × Str)

/-- Embedding of MimeParameters.__setitem__ via dict assignment:
an existing key keeps its position and gets the new value, a new key is
appended at the end. -/
def setParam : Params → Str → Str → Params
  | [], k, v => [(k, v)]
  | (k1, v1) :: rest, k, v =>
    if k1 = k then (k, v) :: rest else (k1, v1) :: setParam rest k v

/-- Embedding of dict key lookup on the association list. -/
def lookupParam : Params → Str → Option Str
  | [], _ => none
  | (k1, v1) :: rest, k => if k1 = k then some v1 else lookupParam rest k

/-- Embedding of the membership test `key in self.values`. -/
def hasParam (ps : Params) (k : Str) : Bool :=
  ps.any (fun kv => kv.1 = k)

/-- Embedding of Python str.split with separator ';'. -/
def splitSemi : Str → List Str
  | [] => [[]]
  | c :: rest =>
    if c = ';' then [] :: splitSemi rest
    else
      match splitSemi rest with
      | [] => [[c]]
      | seg :: segs => (c :: seg) :: segs

/-- Whitespace stripped by Python str.strip on ASCII text. -/
def isPyWS (c : Char) : Bool :=
  c = ' ' || c = '\t' || c = '\n' || c = '\r' || c = '\x0b' || c = '\x0c'

/-- Embedding of Python str.strip() on ASCII text. -/
def pyStrip (s : Str) : Str :=
  ((s.dropWhile isPyWS).reverse.dropWhile isPyWS).reverse

/-- Processing of one stripped, nonempty parameter segment in
MimeParameters.__init__: match the key=value shape, then store the value
verbatim when it is a token, unquoted and unescaped when it is a quoted
string, and fail otherwise. -/
def parseSegment (ps : Params) (seg : Str) : Option Params :=
  match matchParameter seg with
  | none => none
  | some (k, v) =>
    if isToken v then some (setParam ps k v)
    else if isQuotedString v then
      some (setParam ps k (unescapePairs ((v.drop 1).dropLast)))
    else none

/-- Body of the parsing loop of MimeParameters.__init__ over the
segments produced by split(';'): strip each, skip empties, parse the
rest, threading the accumulated dict. -/
def parseParamsLoop : Params → List Str → Option Params
  | ps, [] => some ps
  | ps, seg :: segs =>
    let seg := pyStrip seg
    if seg.isEmpty then parseParamsLoop ps segs
    else
      match parseSegment ps seg with
      | none => none
      | some ps1 => parseParamsLoop ps1 segs

/-- Embedding of MimeParameters(encoded): parse an encoded parameter
list starting from an empty dict; `none` models the raised ValueError. -/
def parseParams (s : Str) : Option Params :=
  parseParamsLoop [] (splitSemi s)

/-- Encoding of a single parameter value in MimeParameters.__str__:
token values are emitted bare, any other value is emitted between
quotes after the escaping substitution. -/
def encodeValue (v : Str) : Str :=
  if isToken v then v else '"' :: (escapeForQuoting v ++ ['"'])

/-- Embedding of the '; '.join over the encoded key=value items. -/
def joinParams : List Str → Str
  | [] => []
  | [x] => x
  | x :: xs => x ++ ';' :: ' ' :: joinParams xs

/-- Embedding of MimeParameters.__str__. -/
def paramsStr (ps : Params) : Str :=
  joinParams (ps.map (fun kv => kv.1 ++ '=' :: encodeValue kv.2))

/-- Embedding of MimeParameters.__len__: the number of entries, the
reserved quality key excluded. -/
def paramsLen (ps : Params) : Nat :=
  if hasParam ps ['q'] then ps.length - 1 else ps.length

/-- Embedding of MimeParameters.__le__: every non-quality entry of the
left map occurs in the right map with the same value. -/
def paramsLE (ps other : Params) : Bool :=
  ps.all (fun kv =>
    kv.1 = ['q'] || (hasParam other kv.1 && lookupParam other kv.1 = some kv.2))

/-- Media types registered with IANA, as listed in MimeType.MEDIA_TYPES. -/
def MEDIA_TYPES : List Str :=
  ["application".toList, "audio".toList, "example".toList, "image".toList,
   "message".toList, "model".toList, "multipart".toList, "text".toList,
   "video".toList]

/-- Embedding of MimeType.media_type_valid: the wildcard, a registered
media type, or an extension type whose lowercase form starts with x-. -/
def mediaTypeValid (t : Str) : Bool :=
  t = ['*'] || MEDIA_TYPES.contains t ||
    (match t.map Char.toLower with
     | 'x' :: '-' :: _ => true
     | _ => false)

/-- Model of a constructed MimeType value: type, subtype and the
parameter dict. -/
structure MimeType where
  type_ : Str
  subtype : Str
  parameters : Params
  deriving DecidableEq, Repr

/-- Embedding of MimeType.__init__ with keyword parameters given as an
ordered list of key/value pairs; `none` models the raised ValueError.
The checks run in source order: type token, subtype token, media-type
registry, then the wildcard invariant. -/
def mkMimeType (t s : Str) (kwargs : Params) : Option MimeType :=
  if !isToken t then none
  else if !isToken s then none
  else if !mediaTypeValid t then none
  else
    let m : MimeType := ⟨t, s, kwargs.foldl (fun ps kv => setParam ps kv.1 kv.2) []⟩
    if t = ['*'] && !(s = ['*']) then none else some m

/-- Helper for the greedy group (?P<type>.+) of RE_MIMETYPE: split the
input at the last slash that leaves a nonempty remainder, returning the
parts before and after that slash. -/
def splitLastSlash : Str → Option (Str × Str)
  | [] => none
  | c :: cs =>
    match splitLastSlash cs with
    | some (t, r) => some (c :: t, r)
    | none => if c = '/' && !cs.isEmpty then some ([], cs) else none

/-- Helper for the lazy group (?P<subtype>.+?)(?P<parameters>;.*)? of
RE_MIMETYPE applied to the text after the slash: the subtype extends to
the first semicolon after its mandatory first character, the parameter
group (semicolon included) being what remains. -/
def subSplit : Str → (Str × Option Str)
  | [] => ([], none)
  | ';' :: cs => ([], some (';' :: cs))
  | c :: cs =>
    let res := subSplit cs
    (c :: res.1, res.2)

/-- Embedding of the match of RE_MIMETYPE, the pattern
^(?P<type>.+)/(?P<subtype>.+?)(?P<parameters>;.*)?$ without DOTALL: the
dot matches no line feed, so after removing the single trailing line
feed that the dollar anchor tolerates, any remaining line feed defeats
the match; the greedy type group reaches to the last slash followed by
at least one character, and the lazy subtype group stops at the first
semicolon after one mandatory character. -/
def matchMime (s0 : Str) : Option (Str × Str × Option Str) :=
  let s := dollarStrip s0
  if s.contains '\n' then none
  else
    match splitLastSlash s with
    | none => none
    | some (t, rest) =>
      if t.isEmpty then none
      else
        match rest with
        | [] => none
        | c :: cs =>
          let res := subSplit cs
          some (t, c :: res.1, res.2)

/-- Embedding of MimeType.parse: match RE_MIMETYPE, construct the value
from the type and subtype groups, then replace its parameters with
those parsed from the parameter group (an absent group yielding the
empty dict). -/
def mimeParse (s : Str) : Option MimeType :=
  match matchMime s with
  | none => none
  | some (t, sub, pOpt) =>
    match mkMimeType t sub [] with
    | none => none
    | some m =>
      match pOpt with
      | none => some { m with parameters := [] }
      | some pstr =>
        match parseParams pstr with
        | none => none
        | some ps => some { m with parameters := ps }

/-- Embedding of MimeType.__str__: the slash-joined type and subtype,
followed by the encoded parameters when the non-quality parameter count
is nonzero. -/
def mimeStr (m : MimeType) : Str :=
  if paramsLen m.parameters = 0 then m.type_ ++ '/' :: m.subtype
  else m.type_ ++ '/' :: m.subtype ++ ';' :: ' ' :: paramsStr m.parameters

/-- Embedding of MimeType.__contains__: the full wildcard satisfies
everything, a concrete type must match, a subtype wildcard satisfies
all subtypes of the type, a concrete subtype must match, and then the
non-quality parameters of the requested value must all occur in the
offer. -/
def mimeContains (self other : MimeType) : Bool :=
  if self.type_ = ['*'] then true
  else if !(self.type_ = other.type_) then false
  else if self.subtype = ['*'] then true
  else if !(self.subtype = other.subtype) then false
  else paramsLE self.parameters other.parameters

/-- Embedding of MimeType.__gt__: true when the other side has a type
or subtype wildcard that this side makes concrete, or when this side
has strictly more non-quality parameters. -/
def mimeGT (self other : MimeType) : Bool :=
  if other.type_ = ['*'] && !(self.type_ = ['*']) then true
  else if other.subtype = ['*'] && !(self.subtype = ['*']) then true
  else decide (paramsLen other.parameters < paramsLen self.parameters)

/-- Embedding of MimeType.__eq__: equality of the canonical string
forms. -/
def mimeEq (m1 m2 : MimeType) : Bool :=
  mimeStr m1 = mimeStr m2

/-- Embedding of MimeType.__hash__: the hash of the canonical string
form, for an arbitrary string-hash function h. -/
def mimeHash (h : Str → Nat) (m : MimeType) : Nat :=
  h (mimeStr m)

/-- Numeric value of a string of decimal digits. -/
def natOfDigits (l : Str) : Nat :=
  l.foldl (fun n c => 10 * n + (c.toNat - 48)) 0

/-- Helper for the optional exponent part of a finite decimal literal:
an empty remainder means exponent zero, otherwise e or E, an optional
sign and a nonempty digit string ending the literal. -/
def parseExponentPart : Str → Option Int
  | [] => some 0
  | c :: rest =>
    if c = 'e' || c = 'E' then
      let (sgn, r) : Int × Str :=
        match rest with
        | '+' :: r => (1, r)
        | '-' :: r => (-1, r)
        | r => (1, r)
      let d := r.takeWhile Char.isDigit
      if d.isEmpty || !(r.drop d.length).isEmpty then none
      else some (sgn * (natOfDigits d : Int))
    else none

/-- Model of a finite decimal.Decimal value: an integer coefficient and
a power-of-ten exponent, the number being num times ten to the exp.
Decimal arithmetic and comparison are exact; comparison is numeric. -/
structure Dec where
  num : Int
  exp : Int
  deriving DecidableEq, Repr

/-- Numeric value of a Dec as a rational, used to state properties. -/
def Dec.toRat (d : Dec) : ℚ :=
  (d.num : ℚ) * (10 : ℚ) ^ d.exp

/-- Exact numeric strict comparison of two Dec values, by comparison
of the coefficients brought to the smaller exponent. -/
def Dec.blt (a b : Dec) : Bool :=
  let m := min a.exp b.exp
  a.num * (10 : Int) ^ (a.exp - m).toNat < b.num * (10 : Int) ^ (b.exp - m).toNat

/-- Model of the decimal.Decimal string constructor on finite ASCII
numeric literals: optional surrounding whitespace, an optional sign, a
digit string with an optional fractional part (at least one digit in
total), and an optional exponent.  A `none` result models the
decimal.InvalidOperation raised on malformed numerals such as abc.
The special non-finite spellings (NaN and the infinities) are accepted
by Python with a non-finite value rather than an exception; they have
no finite coefficient-exponent form and lie outside this model, and no
theorem of this development evaluates a quality on them. -/
def parseDecimal (s : Str) : Option Dec :=
  let s0 := pyStrip s
  let (sgn, s1) : Int × Str :=
    match s0 with
    | '+' :: r => (1, r)
    | '-' :: r => (-1, r)
    | r => (1, r)
  let d1 := s1.takeWhile Char.isDigit
  let r1 := s1.drop d1.length
  match r1 with
  | '.' :: r2 =>
    let d2 := r2.takeWhile Char.isDigit
    let r3 := r2.drop d2.length
    if d1.isEmpty && d2.isEmpty then none
    else
      match parseExponentPart r3 with
      | none => none
      | some e => some ⟨sgn * (natOfDigits (d1 ++ d2) : Int), e - d2.length⟩
  | r2 =>
    if d1.isEmpty then none
    else
      match parseExponentPart r2 with
      | none => none
      | some e => some ⟨sgn * (natOfDigits d1 : Int), e⟩

/-- Embedding of Negotiable.quality: the decimal value of the stored q
parameter, the literal 1 when the key is absent (the KeyError branch);
`none` models an uncaught decimal.InvalidOperation on a stored q value
that is not a decimal numeral. -/
def quality (m : MimeType) : Option Dec :=
  match lookupParam m.parameters ['q'] with
  | none => some ⟨1, 0⟩
  | some v => parseDecimal v

/-- Embedding of the Python builtin max over a list under the __gt__
comparison of MimeType: the running maximum is replaced exactly when a
later item compares strictly greater than it; the empty list models the
raised ValueError as `none`. -/
def pyMax (l : List MimeType) : Option MimeType :=
  match l with
  | [] => none
  | x :: xs => some (xs.foldl (fun acc item => if mimeGT item acc then item else acc) x)

/-- Embedding of Broker.closest_match: the max, under MimeType.__gt__,
of the requested values that contain the offer; `none` models the
ValueError raised by max on an empty generator. -/
def closestMatch (requested : List MimeType) (offer : MimeType) : Option MimeType :=
  pyMax (requested.filter (fun r => mimeContains r offer))

/-- Loop of Broker.best_offer: offers whose closest_match raises are
skipped; an offer strictly improving the best quality seen so far
replaces the incumbent.  The outer `none` models an uncaught exception
while computing a match quality; `some none` models the Python None
result. -/
def bestOfferLoop (requested : List MimeType) :
    List MimeType → Option (MimeType × Dec) → Option (Option MimeType)
  | [], best => some (best.map (fun b => b.1))
  | o :: os, best =>
    match closestMatch requested o with
    | none => bestOfferLoop requested os best
    | some m =>
      match quality m with
      | none => none
      | some q =>
        match best with
        | none => bestOfferLoop requested os (some (o, q))
        | some (b, bq) =>
          if Dec.blt bq q then bestOfferLoop requested os (some (o, q))
          else bestOfferLoop requested os (some (b, bq))

/-- Embedding of Broker.best_offer. -/
def bestOffer (requested offered : List MimeType) : Option (Option MimeType) :=
  bestOfferLoop requested offered none

deriving instance DecidableEq for Except

/-- Failure kinds raised by Broker.negotiate_endpoint, from
eupheme/response.py: HttpNotImplementedException,
HttpMethodNotAllowedException (carrying the allowed-method collection
handed to its constructor) and HttpInternalServerErrorException. -/
inductive HttpError where
  | notImplemented
  | methodNotAllowed (allowed : List Str)
  | internalServerError
  deriving DecidableEq, Repr

/-- Model of the resource collaborator used by negotiate_endpoint: its
allowed-method collection and its method handlers, addressed by
lowercase attribute name (handlers are opaque and identified by
number). -/
structure Resource where
  allowed_methods : List Str
  handlers : List (Str × Nat)
  deriving DecidableEq, Repr

/-- Lookup of a resource attribute, modelling getattr; `none` models
the AttributeError branch. -/
def lookupHandler : List (Str × Nat) → Str → Option Nat
  | [], _ => none
  | (n, h) :: rest, nm => if n = nm then some h else lookupHandler rest nm

/-- Embedding of Python str.lower on ASCII text. -/
def pyLower (s : Str) : Str :=
  s.map Char.toLower

/-- Embedding of Broker.negotiate_endpoint: a method outside the
server-wide set raises HttpNotImplementedException; a method outside
the resource's allowed set raises HttpMethodNotAllowedException with
the resource's allowed methods; otherwise the handler attribute named
by the lowercased method is returned, a missing attribute raising
HttpInternalServerErrorException. -/
def negotiateEndpoint (methods : List Str) (method : Str) (resource : Resource) :
    Except HttpError Nat :=
  if !(methods.contains method) then .error .notImplemented
  else if !(resource.allowed_methods.contains method) then
    .error (.methodNotAllowed resource.allowed_methods)
  else
    match lookupHandler resource.handlers (pyLower method) with
    | some h => .ok h
    | none => .error .internalServerError

/-- Requested value text/*;q=0.3 of the RFC2616 scenario. -/
def mtTextAnyQ03 : MimeType := ⟨"text".toList, ['*'], [(['q'], "0.3".toList)]⟩

/-- Requested value text/html;q=0.7 of the RFC2616 scenario. -/
def mtHtmlQ07 : MimeType := ⟨"text".toList, "html".toList, [(['q'], "0.7".toList)]⟩

/-- Value text/html;level=1 of the RFC2616 scenario. -/
def mtHtmlL1 : MimeType := ⟨"text".toList, "html".toList, [("level".toList, ['1'])]⟩

/-- Requested value text/html;level=2;q=0.4 of the RFC2616 scenario. -/
def mtHtmlL2Q04 : MimeType :=
  ⟨"text".toList, "html".toList, [("level".toList, ['2']), (['q'], "0.4".toList)]⟩

/-- Requested value */*;q=0.5 of the RFC2616 scenario. -/
def mtAnyAnyQ05 : MimeType := ⟨['*'], ['*'], [(['q'], "0.5".toList)]⟩

/-- Offered value text/html;level=2 of the RFC2616 scenario. -/
def mtHtmlL2 : MimeType := ⟨"text".toList, "html".toList, [("level".toList, ['2'])]⟩

/-- Offered value text/html;level=3 of the RFC2616 scenario. -/
def mtHtmlL3 : MimeType := ⟨"text".toList, "html".toList, [("level".toList, ['3'])]⟩

/-- Offered value text/html of the RFC2616 scenario. -/
def mtHtml : MimeType := ⟨"text".toList, "html".toList, []⟩

/-- Offered value text/plain of the RFC2616 scenario. -/
def mtPlain : MimeType := ⟨"text".toList, "plain".toList, []⟩

/-- Offered value image/jpeg of the RFC2616 scenario. -/
def mtJpeg : MimeType := ⟨"image".toList, "jpeg".toList, []⟩

/-- Requested list of the RFC2616 scenario, in header order. -/
def requestedC2 : List MimeType :=
  [mtTextAnyQ03, mtHtmlQ07, mtHtmlL1, mtHtmlL2Q04, mtAnyAnyQ05]

/-- Offered list of the RFC2616 scenario, in the order of the test. -/
def offeredC2 : List MimeType :=
  [mtHtmlL1, mtHtmlL2, mtHtmlL3, mtHtml, mtPlain, mtJpeg]

/-- Requested list distinguishing quality maximisation from
specificity maximisation in closest_match. -/
def reqTwo : List MimeType := [mtHtmlQ07, mtHtmlL2Q04]

/-- Resource of the endpoint-negotiation scenario, allowing GET and
POST and implementing both. -/
def resGetPost : Resource :=
  ⟨["GET".toList, "POST".toList], [("get".toList, 0), ("post".toList, 1)]⟩

/-- Server-wide method set of the endpoint-negotiation scenario. -/
def methodsGPP : List Str := ["GET".toList, "POST".toList, "PUT".toList]

/-- Left fold keeping the incumbent unless an item is strictly greater
stays inside the initial value and the folded list. -/
lemma foldl_gt_mem (xs : List MimeType) (acc : MimeType) :
    xs.foldl (fun a item => if mimeGT item a then item else a) acc ∈ acc :: xs := by
  induction xs generalizing acc with
  | nil => simp
  | cons x xs ih =>
    have h := ih (if mimeGT x acc then x else acc)
    rcases List.mem_cons.mp h with h1 | h1
    · rw [List.foldl_cons, h1]
      by_cases hg : mimeGT x acc
      · simp [hg]
      · simp [hg]
    · rw [List.foldl_cons]
      exact List.mem_cons_of_mem _ (List.mem_cons_of_mem _ h1)

/-- Max of a nonempty list under the __gt__ fold is a member. -/
lemma pyMax_mem (l : List MimeType) (r : MimeType) (h : pyMax l = some r) : r ∈ l := by
  cases l with
  | nil => exact absurd h (by simp [pyMax])
  | cons x xs =>
    have hr : xs.foldl (fun a item => if mimeGT item a then item else a) x = r := by
      simpa [pyMax] using h
    exact hr ▸ foldl_gt_mem xs x

/-- Dropping the length of the takeWhile of a list is its dropWhile. -/
lemma drop_length_takeWhile (p : Char → Bool) (l : Str) :
    l.drop (l.takeWhile p).length = l.dropWhile p := by
  induction l with
  | nil => rfl
  | cons c cs ih =>
    by_cases h : p c
    · simp [List.takeWhile_cons, List.dropWhile_cons, h, ih]
    · simp [List.takeWhile_cons, List.dropWhile_cons, h]

/-- Scanning up to the first equals sign over a word-character list
followed by an equals sign recovers exactly that list. -/
lemma takeWhile_until_eq (k v : Str) (hk : ∀ c ∈ k, isWordChar c = true) :
    (k ++ '=' :: v).takeWhile (fun c => !(c = '=')) = k := by
  induction k with
  | nil => simp [List.takeWhile_cons]
  | cons c cs ih =>
    have hc := hk c (by simp)
    have hne : ¬(c = '=') := by
      intro h
      rw [h] at hc
      exact absurd hc (by decide)
    simp [List.takeWhile_cons, hne, ih (fun x hx => hk x (by simp [hx]))]

/-- Specificity between values with the same wildcard placement reduces
to the comparison of non-quality parameter counts. -/
lemma mimeGT_same_wildcards (a b : MimeType)
    (ht : a.type_ = ['*'] ↔ b.type_ = ['*'])
    (hs : a.subtype = ['*'] ↔ b.subtype = ['*']) :
    mimeGT a b = decide (paramsLen b.parameters < paramsLen a.parameters) := by
  have h1 : (decide (b.type_ = ['*']) && !decide (a.type_ = ['*'])) = false := by
    by_cases h : b.type_ = ['*']
    · simp [h, ht.mpr h]
    · simp [h]
  have h2 : (decide (b.subtype = ['*']) && !decide (a.subtype = ['*'])) = false := by
    by_cases h : b.subtype = ['*']
    · simp [h, hs.mpr h]
    · simp [h]
  simp only [mimeGT, h1, h2]
  simp

/-- C2: in the RFC2616 section 14.1 scenario, closest_match assigns
qualities 1, 0.4, 0.7, 0.7, 0.3 and 0.5 to the six offers in order,
and best_offer selects text/html;level=1; the requested and offered
values are exactly the parses of the header expressions. -/
theorem C2_end_to_end :
    (["text/*;q=0.3", "text/html;q=0.7", "text/html;level=1",
      "text/html;level=2;q=0.4", "*/*;q=0.5"].map
        (fun s => mimeParse s.toList)) = requestedC2.map some ∧
    (["text/html;level=1", "text/html;level=2", "text/html;level=3",
      "text/html", "text/plain", "image/jpeg"].map
        (fun s => mimeParse s.toList)) = offeredC2.map some ∧
    (offeredC2.map (fun o => (closestMatch requestedC2 o).map quality)) =
      [some (some ⟨1, 0⟩), some (some ⟨4, -1⟩), some (some ⟨7, -1⟩),
       some (some ⟨7, -1⟩), some (some ⟨3, -1⟩), some (some ⟨5, -1⟩)] ∧
    [Dec.toRat ⟨1, 0⟩, Dec.toRat ⟨4, -1⟩, Dec.toRat ⟨7, -1⟩,
     Dec.toRat ⟨3, -1⟩, Dec.toRat ⟨5, -1⟩] =
      [(1 : ℚ), 2/5, 7/10, 3/10, 1/2] ∧
    bestOffer requestedC2 offeredC2 = some (some mtHtmlL1) := by
  refine ⟨by decide, by decide, by decide, ?_, by decide⟩
  norm_num [Dec.toRat]

/-- C3: the encoder leaves a bare carriage return unescaped (its regex
spells (!?\n) where the comment intends (?!\n)), so a stored value
consisting of one bare CR — which is reachable from the parser as the
unescaping of the quoted string of backslash CR — is re-serialized to
a string whose quoted value violates the quoted-string grammarite and is
rejected on re-parsing: the round-trip invariant fails on this value. -/
theorem C3_bare_cr_roundtrip_failure :
    parseParams "k=\"\\\r\"".toList = some [(['k'], ['\r'])] ∧
    escapeForQuoting ['\r'] = ['\r'] ∧
    escapeForQuoting ['\r', '\n'] = ['\\', '\r', '\n'] ∧
    paramsStr [(['k'], ['\r'])] = "k=\"\r\"".toList ∧
    parseParams "k=\"\r\"".toList = none := by
  refine ⟨by decide, by decide, by decide, by decide, by decide⟩

/-- C6 counterexample: with server-wide methods GET, POST and PUT and a
resource allowing GET and POST, the method DELETE lies outside the
server-wide set, so negotiate_endpoint raises the method-unimplemented
kind rather than the method-not-allowed kind the claim expects. -/
theorem C6_counterexample :
    negotiateEndpoint methodsGPP "DELETE".toList resGetPost =
      Except.error HttpError.notImplemented ∧
    ¬(negotiateEndpoint methodsGPP "DELETE".toList resGetPost =
      Except.error (HttpError.methodNotAllowed ["GET".toList, "POST".toList])) := by
  refine ⟨by decide, by decide⟩

/-- C6 amended: DELETE and PATCH, both outside the server-wide method
set, fail with method-unimplemented, while PUT — inside the server-wide
set but not allowed by the resource — fails with method-not-allowed
carrying the resource's allowed-method list GET, POST. -/
theorem C6_negotiate_endpoint_amended :
    negotiateEndpoint methodsGPP "DELETE".toList resGetPost =
      Except.error HttpError.notImplemented ∧
    negotiateEndpoint methodsGPP "PATCH".toList resGetPost =
      Except.error HttpError.notImplemented ∧
    negotiateEndpoint methodsGPP "PUT".toList resGetPost =
      Except.error (HttpError.methodNotAllowed ["GET".toList, "POST".toList]) ∧
    negotiateEndpoint methodsGPP "GET".toList resGetPost = Except.ok 0 := by
  refine ⟨by decide, by decide, by decide, by decide⟩

/-- C10: the value text/html;q=abc is publicly constructible — abc is
a valid token, so parameter parsing accepts it — and on it the quality
computation fails with an uncaught decimal.InvalidOperation (modelled
as none), while the absent-key case is handled and yields 1. -/
theorem C10_quality_unhandled :
    mimeParse "text/html;q=abc".toList =
      some ⟨"text".toList, "html".toList, [(['q'], "abc".toList)]⟩ ∧
    isToken "abc".toList = true ∧
    quality ⟨"text".toList, "html".toList, [(['q'], "abc".toList)]⟩ = none ∧
    quality ⟨"text".toList, "html".toList, []⟩ = some ⟨1, 0⟩ := by
  refine ⟨by decide, by decide, by decide, by decide⟩

/-- C8 counterexample: the stored quality is not checked against the
range, so the parseable value text/html;q=5 has quality 5, outside
the unit interval the claim asserts. -/
theorem C8_counterexample :
    mimeParse "text/html;q=5".toList =
      some ⟨"text".toList, "html".toList, [(['q'], ['5'])]⟩ ∧
    quality ⟨"text".toList, "html".toList, [(['q'], ['5'])]⟩ = some ⟨5, 0⟩ ∧
    Dec.toRat ⟨5, 0⟩ = 5 ∧
    ¬((5 : ℚ) ≤ 1) := by
  refine ⟨by decide, by decide, by norm_num [Dec.toRat], by norm_num⟩

/-- C1 counterexample: for the offer text/html;level=2 and the
requested values text/html;q=0.7 and text/html;level=2;q=0.4 — both of
which contain the offer — closest_match returns the more specific
text/html;level=2;q=0.4 of quality 0.4, not the highest-quality
containing element text/html;q=0.7 of quality 0.7. -/
theorem C1_counterexample :
    closestMatch reqTwo mtHtmlL2 = some mtHtmlL2Q04 ∧
    quality mtHtmlL2Q04 = some ⟨4, -1⟩ ∧
    mtHtmlQ07 ∈ reqTwo ∧
    mimeContains mtHtmlQ07 mtHtmlL2 = true ∧
    quality mtHtmlQ07 = some ⟨7, -1⟩ ∧
    Dec.blt ⟨4, -1⟩ ⟨7, -1⟩ = true ∧
    Dec.toRat ⟨4, -1⟩ < Dec.toRat ⟨7, -1⟩ := by
  refine ⟨by decide, by decide, by decide, by decide, by decide, by decide, ?_⟩
  norm_num [Dec.toRat]

/-- C4 counterexample: text/plain and text/*;foo=x are both valid and
each compares strictly greater than the other under
more_specific_than — the concrete subtype beats the wildcard while the
extra parameter beats the empty parameter list — so the relation is
not asymmetric and hence no strict partial order. -/
theorem C4_counterexample :
    mkMimeType "text".toList "plain".toList [] = some mtPlain ∧
    mkMimeType "text".toList ['*'] [("foo".toList, ['x'])] =
      some ⟨"text".toList, ['*'], [("foo".toList, ['x'])]⟩ ∧
    mimeGT mtPlain ⟨"text".toList, ['*'], [("foo".toList, ['x'])]⟩ = true ∧
    mimeGT ⟨"text".toList, ['*'], [("foo".toList, ['x'])]⟩ mtPlain = true := by
  refine ⟨by decide, by decide, by decide, by decide⟩

/-- C5 counterexample: the canonical string form serializes parameters
in insertion order, so the two valid values text/html with parameters
a=1, b=2 inserted in the two orders have different canonical strings
and compare unequal although their parameter sets coincide. -/
theorem C5_counterexample :
    mkMimeType "text".toList "html".toList [(['a'], ['1']), (['b'], ['2'])] =
      some ⟨"text".toList, "html".toList, [(['a'], ['1']), (['b'], ['2'])]⟩ ∧
    mkMimeType "text".toList "html".toList [(['b'], ['2']), (['a'], ['1'])] =
      some ⟨"text".toList, "html".toList, [(['b'], ['2']), (['a'], ['1'])]⟩ ∧
    mimeEq ⟨"text".toList, "html".toList, [(['a'], ['1']), (['b'], ['2'])]⟩
      ⟨"text".toList, "html".toList, [(['b'], ['2']), (['a'], ['1'])]⟩ = false := by
  refine ⟨by decide, by decide, by decide⟩

/-- C1 amended: closest_match returns the Python max of the containing
requested values under the specificity comparison __gt__ — a left fold
keeping the incumbent unless a later element is strictly more specific
— so its result is an element of requested that contains the offer
(not necessarily one of maximal quality), and it fails with ValueError
exactly when no requested value contains the offer. -/
theorem C1_closest_match_amended :
    (∀ (requested : List MimeType) (offer r : MimeType),
        closestMatch requested offer = some r →
        r ∈ requested ∧ mimeContains r offer = true) ∧
    (∀ (requested : List MimeType) (offer : MimeType),
        closestMatch requested offer = none ↔
          ∀ r ∈ requested, mimeContains r offer = false) := by
  constructor
  · intro requested offer r h
    have hr := pyMax_mem _ r h
    have hm := List.mem_filter.mp hr
    exact ⟨hm.1, hm.2⟩
  · intro requested offer
    constructor
    · intro h r hmem
      cases hf : List.filter (fun r => mimeContains r offer) requested with
      | nil =>
        have := List.filter_eq_nil_iff.mp hf r hmem
        simpa using this
      | cons x xs =>
        exact absurd h (by simp [closestMatch, hf, pyMax])
    · intro h
      have hf : List.filter (fun r => mimeContains r offer) requested = [] :=
        List.filter_eq_nil_iff.mpr (fun r hr => by simp [h r hr])
      simp [closestMatch, hf, pyMax]

/-- C1 witness: the amended theorem applied to the two-element request
list and the offer text/html;level=2. -/
theorem C1_witness :
    mtHtmlL2Q04 ∈ reqTwo ∧ mimeContains mtHtmlL2Q04 mtHtmlL2 = true :=
  C1_closest_match_amended.1 reqTwo mtHtmlL2 mtHtmlL2Q04 (by decide)

/-- C4 amended: more_specific_than is irreflexive, and between values
with identical wildcard placement it reduces to the non-quality
parameter count, where it is asymmetric and leaves equal counts
unordered; asymmetry fails in general (see the counterexample), so the
relation is not a strict partial order on all valid values. -/
theorem C4_specificity_amended :
    (∀ m : MimeType, mimeGT m m = false) ∧
    (∀ a b : MimeType, (a.type_ = ['*'] ↔ b.type_ = ['*']) →
        (a.subtype = ['*'] ↔ b.subtype = ['*']) →
        ¬(mimeGT a b = true ∧ mimeGT b a = true)) ∧
    (∀ a b : MimeType, (a.type_ = ['*'] ↔ b.type_ = ['*']) →
        (a.subtype = ['*'] ↔ b.subtype = ['*']) →
        paramsLen a.parameters = paramsLen b.parameters →
        mimeGT a b = false ∧ mimeGT b a = false) := by
  refine ⟨?_, ?_, ?_⟩
  · intro m
    rw [mimeGT_same_wildcards m m Iff.rfl Iff.rfl]
    simp
  · rintro a b ht hs ⟨h1, h2⟩
    rw [mimeGT_same_wildcards a b ht hs] at h1
    rw [mimeGT_same_wildcards b a ht.symm hs.symm] at h2
    exact absurd (of_decide_eq_true h1) (not_lt.mpr (le_of_lt (of_decide_eq_true h2)))
  · intro a b ht hs hlen
    constructor
    · rw [mimeGT_same_wildcards a b ht hs, hlen]
      simp
    · rw [mimeGT_same_wildcards b a ht.symm hs.symm, hlen]
      simp

/-- C4 witness: irreflexivity at text/plain and asymmetry between the
two level-parameter variants of text/html. -/
theorem C4_witness :
    mimeGT mtPlain mtPlain = false ∧
    ¬(mimeGT mtHtmlL1 mtHtmlL2 = true ∧ mimeGT mtHtmlL2 mtHtmlL1 = true) :=
  ⟨C4_specificity_amended.1 mtPlain,
   C4_specificity_amended.2.1 mtHtmlL1 mtHtmlL2 (by decide) (by decide)⟩

/-- C5 amended: equality and hashing are over the canonical string
form, which serializes parameters in insertion order; equal values
always hash alike, and values constructed from the same parameter list
in the same order are equal with equal hashes — but values whose
parameters were inserted in different orders have different canonical
strings and are unequal (see the counterexample). -/
theorem C5_equality_amended :
    (∀ (h : Str → Nat) (m1 m2 : MimeType), mimeEq m1 m2 = true →
        mimeHash h m1 = mimeHash h m2) ∧
    (∀ (t s : Str) (ps : Params) (m1 m2 : MimeType),
        mkMimeType t s ps = some m1 → mkMimeType t s ps = some m2 →
        mimeEq m1 m2 = true ∧ ∀ h : Str → Nat, mimeHash h m1 = mimeHash h m2) := by
  constructor
  · intro h m1 m2 he
    have hs : mimeStr m1 = mimeStr m2 := by simpa [mimeEq] using he
    simp [mimeHash, hs]
  · intro t s ps m1 m2 h1 h2
    have hm : m1 = m2 := Option.some.inj (h1.symm.trans h2)
    subst hm
    exact ⟨by simp [mimeEq], fun h => rfl⟩

/-- C5 witness: the amended theorem applied to text/html;level=1
constructed twice from the same parameter list. -/
theorem C5_witness :
    mimeEq mtHtmlL1 mtHtmlL1 = true ∧
    mimeHash List.length mtHtmlL1 = mimeHash List.length mtHtmlL1 :=
  have h := C5_equality_amended.2 "text".toList "html".toList
    [("level".toList, ['1'])] mtHtmlL1 mtHtmlL1 (by decide) (by decide)
  ⟨h.1, h.2 List.length⟩

/-- C7: the dollar anchor of Python regular expressions matches just
before a trailing line feed, so a truthy RE_TOKEN.match does not
guarantee the token grammar: the constructor call with subtype html
followed by a line feed succeeds in the code although that subtype
contains a character outside the token character class — the claimed
construction invariant fails on the program. -/
theorem C7_trailing_newline_bug :
    isToken "html\n".toList = true ∧
    isTokenChar '\n' = false ∧
    "html\n".toList.all isTokenChar = false ∧
    mkMimeType "text".toList "html\n".toList [] =
      some ⟨"text".toList, "html\n".toList, []⟩ := by
  refine ⟨by decide, by decide, by decide, by decide⟩

/-- C8 amended: quality is the exact decimal value of the stored q
string — exactly 1 when the key is absent, the exact decimal one-half
for a stored 0.5 — but the code imposes no range check, so stored
values outside the unit interval are returned as they are (see the
counterexample with q=5). -/
theorem C8_quality_amended :
    (∀ m : MimeType, lookupParam m.parameters ['q'] = none →
        quality m = some ⟨1, 0⟩) ∧
    Dec.toRat ⟨1, 0⟩ = 1 ∧
    (∀ m : MimeType, lookupParam m.parameters ['q'] = some "0.5".toList →
        quality m = some ⟨5, -1⟩) ∧
    Dec.toRat ⟨5, -1⟩ = 1/2 := by
  refine ⟨?_, by norm_num [Dec.toRat], ?_, ?_⟩
  · intro m h
    unfold quality
    rw [h]
  · intro m h
    unfold quality
    rw [h]
    decide
  · norm_num [Dec.toRat]

/-- C8 witness: the amended theorem applied to text/html without a
quality parameter and to text/plain;q=0.5. -/
theorem C8_witness :
    quality mtHtml = some ⟨1, 0⟩ ∧
    quality ⟨"text".toList, "plain".toList, [(['q'], "0.5".toList)]⟩ = some ⟨5, -1⟩ :=
  ⟨C8_quality_amended.1 mtHtml (by decide),
   C8_quality_amended.2.2.1 ⟨"text".toList, "plain".toList, [(['q'], "0.5".toList)]⟩
     (by decide)⟩

/-- C9: on ASCII input, a parameter segment is matched only when its
key — the text before the equals sign — consists entirely of word
characters; a key containing any other character, such as the hyphen
of foo-bar, makes parsing fail with a ValueError even though foo-bar
satisfies the token grammar. -/
theorem C9_parameter_key_grammar :
    (∀ (seg k v : Str), matchParameter seg = some (k, v) →
        k ≠ [] ∧ k.all isWordChar = true) ∧
    (∀ seg : Str, (∀ c ∈ seg, c.toNat ≤ 127) →
        ¬((seg.takeWhile (fun c => !(c = '='))).all isWordChar = true) →
        matchParameter seg = none) ∧
    parseParams "foo-bar=x".toList = none ∧
    isToken "foo-bar".toList = true := by
  refine ⟨?_, ?_, by decide, by decide⟩
  · intro seg k v h
    simp only [matchParameter] at h
    split at h
    · exact absurd h (by simp)
    · split at h
      · obtain ⟨hk, hv⟩ := Prod.mk.injEq .. ▸ Option.some.inj h
        subst hk
        refine ⟨?_, List.all_takeWhile⟩
        intro hnil
        simp_all
      · exact absurd h (by simp)
  · intro seg hascii hbad
    cases hm : matchParameter seg with
    | none => rfl
    | some kv =>
      exfalso
      obtain ⟨k, v⟩ := kv
      simp only [matchParameter] at hm
      split at hm
      · exact absurd hm (by simp)
      · rename_i hne
        split at hm
        · rename_i v2 hdrop
          have hsplit : seg = seg.takeWhile isWordChar ++ '=' :: v2 := by
            conv_lhs => rw [← List.takeWhile_append_dropWhile (p := isWordChar) (l := seg)]
            rw [← drop_length_takeWhile isWordChar seg, hdrop]
          have hk : ∀ c ∈ seg.takeWhile isWordChar, isWordChar c = true :=
            fun c hc => List.mem_takeWhile_imp hc
          apply hbad
          calc (seg.takeWhile (fun c => !(c = '='))).all isWordChar
              = ((seg.takeWhile isWordChar ++ '=' :: v2).takeWhile
                  (fun c => !(c = '='))).all isWordChar := by rw [← hsplit]
            _ = (seg.takeWhile isWordChar).all isWordChar := by
                  rw [takeWhile_until_eq _ _ hk]
            _ = true := List.all_takeWhile
        · exact absurd hm (by simp)

/-- C9 witness: the rejection of foo-bar=x and the accepted shape of
the segment foo=bar. -/
theorem C9_witness :
    matchParameter "foo-bar=x".toList = none ∧
    ("foo".toList ≠ [] ∧ "foo".toList.all isWordChar = true) :=
  ⟨C9_parameter_key_grammar.2.1 "foo-bar=x".toList (by decide) (by decide),
   C9_parameter_key_grammar.1 "foo=bar".toList "foo".toList "bar".toList (by decide)⟩

end Eupheme
